import Mathlib

/-!
Shallow embedding of the BlogAppBackend data-access layer.

The embedding covers `app/crud.py` (repository operations over users,
posts and comments) together with the entity schema it operates on
(`app/models/comment_model.py` is the one model file present; the other
model and schema shapes are modelled from the specification, as marked on
each definition).  The relational store is modelled as an explicit record
of row lists threaded through every operation; SQLAlchemy's
select/filter/first becomes `List.find?`, an UPDATE issued at commit
becomes a `List.map` that rewrites the rows whose primary key matches the
WHERE clause, and DELETE becomes `List.filter`.  The per-call salt drawn
by the bcrypt hasher is passed as an explicit argument, and a Python
exception is an `Except.error`.
-/

namespace BlogApp

/-- Value domain of a SQL comparison as issued by the Python layer: a
column holds an integer, while a bind parameter produced from an arbitrary
Python object (such as a builtin function) is a non-integer value.
`crud.py`'s `get_comment` compares the integer `id` column against the
Python builtin function `id` itself. -/
inductive PyVal where
  | int (n : Nat)
  | pyObj (objName : String)
deriving DecidableEq, Repr

/-- The Python builtin function `id`, as the value bound into a SQL
comparison by `get_comment` (crud.py line 118). It is not an integer, so
it compares unequal to every stored integer id. -/
def builtinIdFn : PyVal := PyVal.pyObj "builtins.id"

/-- Row of the `users` table. Modelled from the spec (§3): the User model
file is not under src/; attributes id, username, email, hashed_password. -/
structure UserRow where
  id : Nat
  username : String
  email : String
  hashed_password : String
deriving DecidableEq, Repr

/-- Row of the `posts` table. Modelled from the spec (§3): the Post model
file is not under src/; attributes id, title, content, owner_id,
created_at (timestamps are modelled as naturals read off a logical
clock). -/
structure PostRow where
  id : Nat
  title : String
  content : String
  owner_id : Nat
  created_at : Nat
deriving DecidableEq, Repr

/-- Row of the `comments` table, from `app/models/comment_model.py`:
id, post_id (FK to posts.id with ondelete CASCADE), content, owner_id,
created_at. -/
structure CommentRow where
  id : Nat
  post_id : Nat
  content : String
  owner_id : Nat
  created_at : Nat
deriving DecidableEq, Repr

/-- The relational store: one list of rows per table, the next value of
each primary-key sequence, and a logical clock supplying the
`created_at` defaults (spec §3: created_at is monotone with insertion
order). -/
structure DB where
  users : List UserRow
  posts : List PostRow
  comments : List CommentRow
  nextUserId : Nat
  nextPostId : Nat
  nextCommentId : Nat
  clock : Nat
deriving DecidableEq, Repr

/-- The empty store. -/
def emptyDB : DB := ⟨[], [], [], 1, 1, 1, 0⟩

/-! ### Password hasher

Modelled from the spec (§4.1): the bcrypt implementation behind
`CryptContext(schemes=["bcrypt"])` is third-party library code, not under
src/.  The contract: `hash` draws a fresh salt (passed explicitly here)
and produces a digest that embeds the salt; `verify(plain, digest)` is
true iff hashing `plain` with the salt embedded in `digest` reproduces
the digest, and it never faults on a mismatch.  The digest is modelled as
a bcrypt-shaped string, a dollar-sign header followed by a salt field and
a secret field, injective in the pair (salt, secret). -/

/-- Salt field of a modelled digest: the salt is a natural number,
rendered in unary over a non-dollar character so the field boundaries of
the digest are unambiguous. -/
def pwdSaltChars (salt : Nat) : List Char := List.replicate salt 's'

/-- Modelled from the spec (§4.1): the digest produced by bcrypt for a
given salt and password. -/
def pwdHash (salt : Nat) (password : String) : String :=
  String.mk ('$' :: '2' :: 'b' :: '$' :: (pwdSaltChars salt ++ '$' :: password.data))

/-- Split a digest remainder at the dollar sign closing its salt field. -/
def splitSalt : List Char → List Char × List Char
  | [] => ([], [])
  | c :: cs =>
    if c = '$' then ([], cs)
    else
      let r := splitSalt cs
      (c :: r.1, r.2)

/-- Modelled from the spec (§4.1): `verify(plaintext, digest)` recomputes
the hash using the salt embedded in the digest and compares; false on a
malformed digest, never a fault. -/
def pwdVerify (plain digest : String) : Bool :=
  match digest.data with
  | '$' :: '2' :: 'b' :: '$' :: rest => (splitSalt rest).2 == plain.data
  | _ => false

/-- crud.py `hash_password` (lines 10-11): wraps `pwd_context.hash`; the
salt freshly drawn inside the library call is the explicit first
argument. -/
def hash_password (salt : Nat) (password : String) : String :=
  pwdHash salt password

/-- crud.py `verify_password` (lines 13-14): wraps `pwd_context.verify`. -/
def verify_password (plain_password hashed_password : String) : Bool :=
  pwdVerify plain_password hashed_password

/-- A Python exception escaping a repository operation: passlib's
`TypeError` on a non-string secret, or the DBAPI driver error raised
when a query parameter cannot be bound (aiosqlite raises
`InterfaceError`, asyncpg an encoding failure). -/
inductive PyError where
  | typeError
  | interfaceError
deriving DecidableEq, Repr

/-- The call `hash_password(x)` on a value that may be Python `None`:
passlib's `CryptContext.hash` raises `TypeError` when the secret is not a
string, so a `None` secret faults instead of producing a digest. -/
def hash_password_opt (salt : Nat) : Option String → Except PyError String
  | none => Except.error PyError.typeError
  | some p => Except.ok (hash_password salt p)

/-! ### Schema projections (pydantic response shapes)

`app/schemas.py` is not under src/; the shapes below are modelled from
the spec (§6): User-public is id, username, email; User-create-response
echoes the caller-supplied username, email and raw password and excludes
the hash and the generated id; Post and Comment projections carry all
entity fields. -/

/-- Modelled from the spec (§6): `schemas.User`, the public User
projection with fields id, username, email (no hashed_password). -/
structure UserPublic where
  id : Nat
  username : String
  email : String
deriving DecidableEq, Repr

/-- Modelled from the spec (§6): `schemas.UserBase`, the create-response
shape, holding only the caller-supplied username, email and raw password
(no id, no hashed_password). -/
structure UserBase where
  username : String
  email : String
  password : String
deriving DecidableEq, Repr

/-- Modelled from the spec (§4.2): `schemas.UserCreate`, the signup
request: username, email, plaintext password. -/
structure UserCreateReq where
  username : String
  email : String
  password : String
deriving DecidableEq, Repr

/-- Modelled from the spec (§4.2): `schemas.UserUpdate` as seen through
`model_dump(exclude_unset=True)`: each field is either absent from the
payload (outer `none`), explicitly present but null (`some none`), or
present with a value (`some (some v)`). -/
structure UserUpdateReq where
  username : Option (Option String)
  email : Option (Option String)
  password : Option (Option String)
deriving DecidableEq, Repr

/-- Modelled from the spec (§6): `schemas.PostRead` with fields id,
title, content, owner_id, created_at. -/
structure PostRead where
  id : Nat
  title : String
  content : String
  owner_id : Nat
  created_at : Nat
deriving DecidableEq, Repr

/-- Modelled from the spec (§4.2): `schemas.PostCreate`: title, content
and the owning user id. -/
structure PostCreateReq where
  title : String
  content : String
  owner_id : Nat
deriving DecidableEq, Repr

/-- Modelled from the spec (§4.2): `schemas.PostUpdate` through
`dict(exclude_unset=True)`, same three-way field encoding as
`UserUpdateReq`. -/
structure PostUpdateReq where
  title : Option (Option String)
  content : Option (Option String)
deriving DecidableEq, Repr

/-- Modelled from the spec (§6): `schemas.CommentRead` with fields id,
content, post_id, owner_id, created_at. -/
structure CommentRead where
  id : Nat
  content : String
  post_id : Nat
  owner_id : Nat
  created_at : Nat
deriving DecidableEq, Repr

/-- Modelled from the spec (§4.2): `schemas.CommentCreate`: the comment
content. -/
structure CommentCreateReq where
  content : String
deriving DecidableEq, Repr

/-- Modelled from the spec (§4.2): `schemas.CommentUpdate`: the new
content string. -/
structure CommentUpdateReq where
  content : String
deriving DecidableEq, Repr

/-- Build `schemas.User` from a users row (crud.py line 20,
`schemas.User(**user.__dict__)`). -/
def userPublicOf (r : UserRow) : UserPublic :=
  ⟨r.id, r.username, r.email⟩

/-- Build `schemas.PostRead` from a posts row. -/
def postReadOf (r : PostRow) : PostRead :=
  ⟨r.id, r.title, r.content, r.owner_id, r.created_at⟩

/-- Build `schemas.CommentRead` from a comments row. -/
def commentReadOf (r : CommentRow) : CommentRead :=
  ⟨r.id, r.content, r.post_id, r.owner_id, r.created_at⟩

/-! ### Repository operations (crud.py) -/

/-- crud.py `get_user` (lines 16-21): select the first users row whose id
column equals `user_id`, project it to `schemas.User`, `None` when no row
matches. -/
def get_user (db : DB) (user_id : Nat) : Option UserPublic :=
  (db.users.find? (fun u => u.id == user_id)).map userPublicOf

/-- crud.py `create_user` (lines 37-42): insert a row whose
hashed_password is `hash_password(user.password)` (salt explicit), commit
and refresh the row, but return `schemas.UserBase(**user.__dict__)` — a
projection of the request, not of the stored row. -/
def create_user (db : DB) (user : UserCreateReq) (salt : Nat) : UserBase × DB :=
  let new_user : UserRow :=
    ⟨db.nextUserId, user.username, user.email, hash_password salt user.password⟩
  (⟨user.username, user.email, user.password⟩,
   { db with users := db.users ++ [new_user], nextUserId := db.nextUserId + 1 })

/-- Field rewrite of the UPDATE statement flushed by crud.py
`update_user` lines 53-54: `setattr(old_user, key, value)` runs only for
keys present in the payload whose value is not None, with the `password`
key already replaced by `hashed_password` (lines 49-52), carried here as
the precomputed `hashed` digest. -/
def applyUserUpdate (u : UserUpdateReq) (hashed : Option String) (r : UserRow) : UserRow :=
  { r with
    username :=
      match u.username with
      | some (some v) => v
      | _ => r.username
    email :=
      match u.email with
      | some (some v) => v
      | _ => r.email
    hashed_password :=
      match hashed with
      | some h => h
      | none => r.hashed_password }

/-- crud.py `update_user` (lines 44-59): locate the row by id (`None`
when absent, nothing written); when the payload carries a `password` key
its value is passed to `hash_password` before the None-skip loop runs, so
an explicitly-null password raises `TypeError` there; otherwise the
non-null payload fields are written back (UPDATE WHERE id = user_id),
committed, and the refreshed row is returned as `schemas.User`. -/
def update_user (db : DB) (user_id : Nat) (user : UserUpdateReq) (salt : Nat) :
    Except PyError (Option UserPublic × DB) :=
  match db.users.find? (fun r => r.id == user_id) with
  | none => Except.ok (none, db)
  | some old_user =>
    let hashedE : Except PyError (Option String) :=
      match user.password with
      | none => Except.ok none
      | some pw => (hash_password_opt salt pw).map some
    match hashedE with
    | Except.error e => Except.error e
    | Except.ok hashed =>
      Except.ok
        (some (userPublicOf (applyUserUpdate user hashed old_user)),
         { db with
             users := db.users.map (fun r =>
               if r.id == user_id then applyUserUpdate user hashed r else r) })

/-- ORDER BY created_at DESC, as a relation on posts rows. -/
def postDescLe (a b : PostRow) : Prop := b.created_at ≤ a.created_at

instance : DecidableRel postDescLe := fun a b => Nat.decLe b.created_at a.created_at

instance : IsTotal PostRow postDescLe :=
  ⟨fun a b => (Nat.le_total b.created_at a.created_at).imp id id⟩

instance : IsTrans PostRow postDescLe :=
  ⟨fun _ _ _ h1 h2 => Nat.le_trans h2 h1⟩

/-- crud.py `get_posts` (lines 77-85): select the posts of `owner_id`
ordered by created_at descending, apply OFFSET `skip` and LIMIT `limit`,
and return the projected rows — or `None` when the page is empty (`if
posts:` on the fetched list). -/
def get_posts (db : DB) (owner_id : Nat) (skip : Nat) (limit : Nat) :
    Option (List PostRead) :=
  let page :=
    (((db.posts.filter (fun p => p.owner_id == owner_id)).insertionSort
        postDescLe).drop skip).take limit
  if page.isEmpty then none else some (page.map postReadOf)

/-- crud.py `create_post` (lines 87-92): insert a row with the
server-assigned id and defaulted created_at, commit, refresh, and return
the reloaded projection. -/
def create_post (db : DB) (post : PostCreateReq) : PostRead × DB :=
  let new_post : PostRow :=
    ⟨db.nextPostId, post.title, post.content, post.owner_id, db.clock⟩
  (postReadOf new_post,
   { db with
       posts := db.posts ++ [new_post],
       nextPostId := db.nextPostId + 1,
       clock := db.clock + 1 })

/-- Field rewrite of the UPDATE flushed by crud.py `update_post` lines
100-101: non-null payload fields overwrite, null or absent fields are
skipped. -/
def applyPostUpdate (u : PostUpdateReq) (r : PostRow) : PostRow :=
  { r with
    title :=
      match u.title with
      | some (some v) => v
      | _ => r.title
    content :=
      match u.content with
      | some (some v) => v
      | _ => r.content }

/-- crud.py `update_post` (lines 95-106): locate by id (`None` when
absent, nothing written), write back the non-null payload fields, commit,
return the refreshed projection. -/
def update_post (db : DB) (id : Nat) (post : PostUpdateReq) :
    Option PostRead × DB :=
  match db.posts.find? (fun r => r.id == id) with
  | none => (none, db)
  | some old_post =>
    (some (postReadOf (applyPostUpdate post old_post)),
     { db with
         posts := db.posts.map (fun r =>
           if r.id == id then applyPostUpdate post r else r) })

/-- crud.py `delete_post` (lines 108-115): `False` when no posts row has
this id; otherwise delete the row — and, through the `ondelete=CASCADE`
on `comments.post_id` (comment_model.py line 11), every comments row
referencing it — commit, and return `True`. -/
def delete_post (db : DB) (id : Nat) : Bool × DB :=
  match db.posts.find? (fun r => r.id == id) with
  | none => (false, db)
  | some _ =>
    (true,
     { db with
         posts := db.posts.filter (fun r => !(r.id == id)),
         comments := db.comments.filter (fun c => !(c.post_id == id)) })

/-- Binding one query parameter through the DBAPI before the statement
runs: an integer value binds to the integer column, while any other
Python object (such as a function) cannot be bound and the driver raises
before a single row is fetched. -/
def bindIntParam : PyVal → Except PyError Nat
  | PyVal.int n => Except.ok n
  | PyVal.pyObj _ => Except.error PyError.interfaceError

/-- crud.py `get_comment` (lines 117-122): the filter is
`models.Comment.id == id`, and `id` in that scope is the Python builtin
function `id` — the `comment_id` parameter is never used.  SQLAlchemy
wraps that function object as the bind parameter of the comparison, and
`db.execute` must bind it through the DBAPI before fetching rows, so
every call raises the driver error; had the parameter been an integer,
the first row with that id would be projected as in the other getters. -/
def get_comment (db : DB) (comment_id : Nat) : Except PyError (Option CommentRead) := do
  let n ← bindIntParam builtinIdFn
  pure ((db.comments.find? (fun c => c.id == n)).map commentReadOf)

/-- Python truthiness of a freshly constructed ORM model instance
(crud.py line 139, `if new_comment:`): a plain object with neither
`__bool__` nor `__len__` is always truthy. -/
def pyTruthyObj (_ : CommentRow) : Bool := true

/-- crud.py `create_comment` (lines 134-141): insert a row with the
server-assigned id and defaulted created_at, commit, refresh; the final
`if new_comment:` tests the instance's truthiness, returning the
projection in the truthy case and `None` otherwise. -/
def create_comment (post_id : Nat) (owner_id : Nat) (comment : CommentCreateReq)
    (db : DB) : Option CommentRead × DB :=
  let new_comment : CommentRow :=
    ⟨db.nextCommentId, post_id, comment.content, owner_id, db.clock⟩
  let db2 : DB :=
    { db with
        comments := db.comments ++ [new_comment],
        nextCommentId := db.nextCommentId + 1,
        clock := db.clock + 1 }
  (if pyTruthyObj new_comment then some (commentReadOf new_comment) else none, db2)

/-- Python truthiness of a string (crud.py line 147,
`if comment.content:`): non-empty. -/
def pyTruthyStr (s : String) : Bool := !(s == "")

/-- Field rewrite of the UPDATE flushed by crud.py `update_comment` lines
147-148: content is overwritten only when the new value is truthy. -/
def applyCommentUpdate (c : CommentUpdateReq) (r : CommentRow) : CommentRow :=
  if pyTruthyStr c.content then { r with content := c.content } else r

/-- crud.py `update_comment` (lines 143-153): locate by id (`None` when
absent, nothing written); overwrite content only when the new content is
truthy; commit and return the refreshed projection either way. -/
def update_comment (db : DB) (id : Nat) (comment : CommentUpdateReq) :
    Option CommentRead × DB :=
  match db.comments.find? (fun r => r.id == id) with
  | none => (none, db)
  | some old_comment =>
    (some (commentReadOf (applyCommentUpdate comment old_comment)),
     { db with
         comments := db.comments.map (fun r =>
           if r.id == id then applyCommentUpdate comment r else r) })

/-! ### Hasher lemmas -/

theorem splitSalt_append (salt : Nat) (p : List Char) :
    splitSalt (pwdSaltChars salt ++ '$' :: p) = (pwdSaltChars salt, p) := by
  induction salt with
  | zero => simp [pwdSaltChars, splitSalt]
  | succ n ih =>
    simp only [pwdSaltChars, List.replicate_succ, List.cons_append, splitSalt] at *
    simp [ih]

theorem pwdVerify_pwdHash (salt : Nat) (p : String) :
    pwdVerify p (pwdHash salt p) = true := by
  simp [pwdVerify, pwdHash, splitSalt_append]

theorem pwdVerify_pwdHash_append (salt : Nat) (p : String) :
    pwdVerify (p ++ "x") (pwdHash salt p) = false := by
  simp [pwdVerify, pwdHash, splitSalt_append, String.data_append]

theorem pwdHash_ne (salt : Nat) (p : String) : pwdHash salt p ≠ p := by
  intro h
  have hd := congrArg (fun s => s.data.length) h
  simp [pwdHash, pwdSaltChars] at hd
  omega

/-! ### Claim theorems -/

/-- A concrete users row and store used to instantiate the theorems
below on concrete inputs. -/
def cexUserRow : UserRow := ⟨1, "alice", "a@x.com", "oldhash"⟩

/-- A store holding exactly `cexUserRow`. -/
def cexDB : DB := ⟨[cexUserRow], [], [], 2, 1, 1, 0⟩

/-- C8: for every user-create request with plaintext password P, the
credential stored by `create_user` never equals P, `verify_password`
accepts P against it, and rejects P ++ "x" against it. -/
theorem C8_create_user_stored_credential (db : DB) (req : UserCreateReq) (salt : Nat) :
    ∃ row : UserRow,
      (create_user db req salt).2.users = db.users ++ [row] ∧
      row.hashed_password ≠ req.password ∧
      verify_password req.password row.hashed_password = true ∧
      verify_password (req.password ++ "x") row.hashed_password = false := by
  refine ⟨⟨db.nextUserId, req.username, req.email, hash_password salt req.password⟩,
    rfl, ?_, ?_, ?_⟩
  · exact pwdHash_ne salt req.password
  · exact pwdVerify_pwdHash salt req.password
  · exact pwdVerify_pwdHash_append salt req.password

/-- C2: the projection returned by `create_user` is built only from the
caller-supplied request fields — it is identical across every store state
and every salt (so nothing reloaded from storage, and the generated id of
the inserted row is not part of it), and its raw password echo differs
from the hashed_password stored in the inserted row. -/
theorem C2_create_user_response_from_request (db : DB) (req : UserCreateReq) (salt : Nat) :
    (create_user db req salt).1 = UserBase.mk req.username req.email req.password ∧
    (∀ (db2 : DB) (salt2 : Nat),
      (create_user db2 req salt2).1 = (create_user db req salt).1) ∧
    ∃ row : UserRow,
      (create_user db req salt).2.users = db.users ++ [row] ∧
      (create_user db req salt).1.password ≠ row.hashed_password := by
  refine ⟨rfl, fun db2 salt2 => rfl,
    ⟨db.nextUserId, req.username, req.email, hash_password salt req.password⟩, rfl, ?_⟩
  exact fun h => pwdHash_ne salt req.password h.symm

/-- C9: `get_comment` compares the id column against the Python builtin
function `id` instead of its `comment_id` parameter, so for a fixed
store its outcome is the same for every argument value: the unbindable
function object makes every call raise the driver error uniformly, and
in particular the stored comment with the requested id is never
returned. -/
theorem C9_get_comment_ignores_comment_id (db : DB) (a b : Nat) :
    get_comment db a = get_comment db b ∧
    get_comment db a = Except.error PyError.interfaceError ∧
    ∀ cr : CommentRead, get_comment db a ≠ Except.ok (some cr) := by
  refine ⟨rfl, rfl, ?_⟩
  intro cr h
  simp [get_comment, bindIntParam, builtinIdFn] at h

/-- C10: `create_comment` never returns the absence signal: the freshly
constructed comment instance is truthy, so every call returns a comment
projection. -/
theorem C10_create_comment_isSome (post_id owner_id : Nat) (c : CommentCreateReq) (db : DB) :
    ∃ cr : CommentRead, (create_comment post_id owner_id c db).1 = some cr := by
  refine ⟨commentReadOf ⟨db.nextCommentId, post_id, c.content, owner_id, db.clock⟩, ?_⟩
  rfl

/-- C3: an update on an id matching no stored row returns the absence
signal for every entity type, never a fault, and leaves the store
untouched. -/
theorem C3_update_unknown_id (db : DB) (uid pid cid : Nat) (uu : UserUpdateReq)
    (pu : PostUpdateReq) (cu : CommentUpdateReq) (salt : Nat)
    (hu : db.users.find? (fun r => r.id == uid) = none)
    (hp : db.posts.find? (fun r => r.id == pid) = none)
    (hc : db.comments.find? (fun r => r.id == cid) = none) :
    update_user db uid uu salt = Except.ok (none, db) ∧
    update_post db pid pu = (none, db) ∧
    update_comment db cid cu = (none, db) := by
  refine ⟨?_, ?_, ?_⟩
  · simp [update_user, hu]
  · simp [update_post, hp]
  · simp [update_comment, hc]

/-- Witness for C3 at a concrete input: id 999999 on the empty store. -/
theorem C3_update_unknown_id_witness :
    update_user emptyDB 999999 ⟨none, none, some none⟩ 0 = Except.ok (none, emptyDB) ∧
    update_post emptyDB 999999 ⟨none, none⟩ = (none, emptyDB) ∧
    update_comment emptyDB 999999 ⟨"new"⟩ = (none, emptyDB) :=
  C3_update_unknown_id emptyDB 999999 999999 999999 ⟨none, none, some none⟩
    ⟨none, none⟩ ⟨"new"⟩ 0 rfl rfl rfl

/-- C1 counterexample: on a store holding user 1, an update payload whose
`password` field is explicitly present and null is NOT skipped — the
value reaches `hash_password` before the None-skip loop runs, and the
call faults with `TypeError` instead of completing and returning the
reloaded projection. -/
theorem C1_counterexample :
    update_user cexDB 1 ⟨none, none, some none⟩ 0 = Except.error PyError.typeError := by
  rfl

/-- C1 (amended): for an existing user id, every NON-password field
explicitly present but null is skipped (its stored value is unchanged),
only explicitly-supplied non-null fields are applied, a non-null password
is stored as a fresh hash of it, and the call completes returning the
reloaded projection — provided the payload does not carry an explicitly
null password, which instead faults inside `hash_password`. -/
theorem C1_update_user_null_policy (db : DB) (uid : Nat) (u : UserUpdateReq)
    (salt : Nat) (old : UserRow)
    (hf : db.users.find? (fun r => r.id == uid) = some old)
    (hpw : u.password ≠ some none) :
    ∃ (res : UserPublic) (db2 : DB),
      update_user db uid u salt = Except.ok (some res, db2) ∧
      res.id = old.id ∧
      res.username = (match u.username with | some (some v) => v | _ => old.username) ∧
      res.email = (match u.email with | some (some v) => v | _ => old.email) ∧
      db2.users.length = db.users.length ∧
      (∀ (i : Nat) (h1 : i < db.users.length) (h2 : i < db2.users.length),
        ((db.users.get ⟨i, h1⟩).id ≠ uid →
          db2.users.get ⟨i, h2⟩ = db.users.get ⟨i, h1⟩) ∧
        ((db.users.get ⟨i, h1⟩).id = uid →
          (db2.users.get ⟨i, h2⟩).id = (db.users.get ⟨i, h1⟩).id ∧
          (db2.users.get ⟨i, h2⟩).username =
            (match u.username with
             | some (some v) => v
             | _ => (db.users.get ⟨i, h1⟩).username) ∧
          (db2.users.get ⟨i, h2⟩).email =
            (match u.email with
             | some (some v) => v
             | _ => (db.users.get ⟨i, h1⟩).email) ∧
          (db2.users.get ⟨i, h2⟩).hashed_password =
            (match u.password with
             | some (some p) => hash_password salt p
             | _ => (db.users.get ⟨i, h1⟩).hashed_password))) := by
  obtain ⟨hashed, hmatch, hE⟩ :
      ∃ hashed : Option String,
        hashed = (match u.password with
          | some (some p) => some (hash_password salt p)
          | _ => none) ∧
        update_user db uid u salt =
          Except.ok (some (userPublicOf (applyUserUpdate u hashed old)),
            { db with users := db.users.map (fun r =>
                if r.id == uid then applyUserUpdate u hashed r else r) }) := by
    rcases hu : u.password with _ | pw
    · exact ⟨none, by simp, by simp [update_user, hf, hu]⟩
    · rcases pw with _ | p
      · exact absurd hu hpw
      · exact ⟨some (hash_password salt p), by simp,
          by simp [update_user, hf, hu, hash_password_opt, Except.map]⟩
  refine ⟨userPublicOf (applyUserUpdate u hashed old), _, hE, rfl, rfl, rfl, by simp, ?_⟩
  intro i h1 h2
  have hget : ∀ h2x : i < (db.users.map (fun r =>
      if r.id == uid then applyUserUpdate u hashed r else r)).length,
      (db.users.map (fun r =>
        if r.id == uid then applyUserUpdate u hashed r else r)).get ⟨i, h2x⟩ =
      (if (db.users.get ⟨i, h1⟩).id == uid
        then applyUserUpdate u hashed (db.users.get ⟨i, h1⟩)
        else db.users.get ⟨i, h1⟩) := by
    intro h2x
    simp [List.get_eq_getElem, List.getElem_map]
  constructor
  · intro hne
    rw [hget h2, if_neg (by simpa using hne)]
  · intro heq
    rw [hget h2, if_pos (by simpa using heq)]
    subst hmatch
    rcases hup : u.password with _ | (_ | p) <;>
      simp [applyUserUpdate, hup]

/-- Witness for the amended C1 at a concrete input: user 1 updated with a
null username, a new email, and a non-null password. -/
theorem C1_update_user_null_policy_witness :
    ∃ (res : UserPublic) (db2 : DB),
      update_user cexDB 1 ⟨some none, some (some "b@y.com"), some (some "pw")⟩ 0 =
        Except.ok (some res, db2) ∧
      res.username = "alice" ∧ res.email = "b@y.com" := by
  obtain ⟨res, db2, hE, -, hu2, he2, -⟩ :=
    C1_update_user_null_policy cexDB 1 ⟨some none, some (some "b@y.com"), some (some "pw")⟩ 0
      cexUserRow rfl (by simp)
  exact ⟨res, db2, hE, by simpa [cexUserRow] using hu2, by simpa using he2⟩

/-- `find?` commutes with a row rewrite that does not change the
predicate's verdict (the UPDATE keeps every primary key fixed, so a
lookup by id after the write finds the rewritten row). -/
theorem find?_map_pred_inv {α : Type} (f : α → α) (p : α → Bool) (l : List α)
    (hp : ∀ r, p (f r) = p r) :
    (l.map f).find? p = (l.find? p).map f := by
  induction l with
  | nil => rfl
  | cons a t ih =>
    cases h : p a with
    | true =>
      rw [List.map_cons, List.find?_cons_of_pos _ (by rw [hp]; exact h),
        List.find?_cons_of_pos _ h]
      rfl
    | false =>
      rw [List.map_cons, List.find?_cons_of_neg _ (by rw [hp]; simp [h]),
        List.find?_cons_of_neg _ (by simp [h]), ih]

/-- C4: on an existing comment id, an empty-string content update is a
no-op on the store and still returns the reloaded projection; a non-empty
content update rewrites exactly the content of that comment, every other
field and every other row unchanged. -/
theorem C4_update_comment_content_policy (db : DB) (cid : Nat) (old : CommentRow)
    (hf : db.comments.find? (fun r => r.id == cid) = some old) :
    update_comment db cid ⟨""⟩ = (some (commentReadOf old), db) ∧
    (∀ c : String, c ≠ "" →
      ∃ db2 : DB,
        update_comment db cid ⟨c⟩ =
          (some ⟨old.id, c, old.post_id, old.owner_id, old.created_at⟩, db2) ∧
        db2.comments.length = db.comments.length ∧
        db2.users = db.users ∧ db2.posts = db.posts ∧
        (∀ (i : Nat) (h1 : i < db.comments.length) (h2 : i < db2.comments.length),
          ((db.comments.get ⟨i, h1⟩).id ≠ cid →
            db2.comments.get ⟨i, h2⟩ = db.comments.get ⟨i, h1⟩) ∧
          ((db.comments.get ⟨i, h1⟩).id = cid →
            db2.comments.get ⟨i, h2⟩ =
              { db.comments.get ⟨i, h1⟩ with content := c }))) := by
  constructor
  · simp [update_comment, hf, applyCommentUpdate, pyTruthyStr]
  · intro c hc
    have htr : pyTruthyStr c = true := by simp [pyTruthyStr, hc]
    have heq : update_comment db cid ⟨c⟩ =
        (some (commentReadOf (applyCommentUpdate ⟨c⟩ old)),
         { db with comments := db.comments.map (fun r =>
             if r.id == cid then applyCommentUpdate ⟨c⟩ r else r) }) := by
      simp only [update_comment]
      rw [hf]
    have happ : applyCommentUpdate ⟨c⟩ old = { old with content := c } := by
      simp [applyCommentUpdate, htr]
    refine ⟨{ db with comments := db.comments.map (fun r =>
        if r.id == cid then applyCommentUpdate ⟨c⟩ r else r) }, ?_, by simp, rfl, rfl, ?_⟩
    · rw [heq, happ]
      rfl
    · intro i h1 h2
      have hget : ∀ h2x : i < (db.comments.map (fun r =>
          if r.id == cid then applyCommentUpdate ⟨c⟩ r else r)).length,
          (db.comments.map (fun r =>
            if r.id == cid then applyCommentUpdate ⟨c⟩ r else r)).get ⟨i, h2x⟩ =
          (if (db.comments.get ⟨i, h1⟩).id == cid
            then applyCommentUpdate ⟨c⟩ (db.comments.get ⟨i, h1⟩)
            else db.comments.get ⟨i, h1⟩) := by
        intro h2x
        simp [List.get_eq_getElem, List.getElem_map]
      constructor
      · intro hne
        rw [hget h2, if_neg (by simpa using hne)]
      · intro heq
        rw [hget h2, if_pos (by simpa using heq)]
        simp [applyCommentUpdate, htr]

/-- A concrete comments row used to instantiate C4. -/
def cexCommentRow : CommentRow := ⟨1, 4, "first", 7, 3⟩

/-- A store holding exactly `cexCommentRow`. -/
def cexCommentDB : DB := ⟨[], [], [cexCommentRow], 1, 1, 2, 4⟩

/-- Witness for C4 at a concrete input: comment 1 updated with "" and
with "second". -/
theorem C4_update_comment_content_policy_witness :
    update_comment cexCommentDB 1 ⟨""⟩ =
      (some (commentReadOf cexCommentRow), cexCommentDB) ∧
    ∃ db2 : DB,
      update_comment cexCommentDB 1 ⟨"second"⟩ =
        (some ⟨1, "second", 4, 7, 3⟩, db2) ∧ db2.comments.length = 1 := by
  obtain ⟨h1, h2⟩ := C4_update_comment_content_policy cexCommentDB 1 cexCommentRow rfl
  obtain ⟨db2, he, hlen, -⟩ := h2 "second" (by simp)
  exact ⟨h1, db2, by simpa [cexCommentRow] using he, by simpa using hlen⟩

/-- C5: updating an existing user with a payload carrying only the email
field changes only the stored email; username and hashed_password of that
row are untouched, every other row is untouched, and a subsequent
`get_user` returns the prior username. -/
theorem C5_update_user_email_only (db : DB) (uid : Nat) (e : String) (salt : Nat)
    (old : UserRow) (hf : db.users.find? (fun r => r.id == uid) = some old) :
    ∃ db2 : DB,
      update_user db uid ⟨none, some (some e), none⟩ salt =
        Except.ok (some ⟨old.id, old.username, e⟩, db2) ∧
      get_user db2 uid = some ⟨old.id, old.username, e⟩ ∧
      (get_user db2 uid).map UserPublic.username = some old.username ∧
      db2.users.length = db.users.length ∧
      (∀ (i : Nat) (h1 : i < db.users.length) (h2 : i < db2.users.length),
        ((db.users.get ⟨i, h1⟩).id ≠ uid →
          db2.users.get ⟨i, h2⟩ = db.users.get ⟨i, h1⟩) ∧
        ((db.users.get ⟨i, h1⟩).id = uid →
          (db2.users.get ⟨i, h2⟩).username = (db.users.get ⟨i, h1⟩).username ∧
          (db2.users.get ⟨i, h2⟩).hashed_password =
            (db.users.get ⟨i, h1⟩).hashed_password ∧
          (db2.users.get ⟨i, h2⟩).email = e)) := by
  have hid : ∀ r : UserRow,
      applyUserUpdate ⟨none, some (some e), none⟩ none r = { r with email := e } :=
    fun r => rfl
  have hE : update_user db uid ⟨none, some (some e), none⟩ salt =
      Except.ok
        (some (userPublicOf (applyUserUpdate ⟨none, some (some e), none⟩ none old)),
         { db with users := db.users.map (fun r =>
             if r.id == uid then applyUserUpdate ⟨none, some (some e), none⟩ none r else r) }) := by
    simp only [update_user]
    rw [hf]
  have hfind :
      (db.users.map (fun r =>
        if r.id == uid then applyUserUpdate ⟨none, some (some e), none⟩ none r else r)).find?
          (fun r => r.id == uid) = some { old with email := e } := by
    have hpres : ∀ r : UserRow,
        (((fun r2 : UserRow =>
            if r2.id == uid then applyUserUpdate ⟨none, some (some e), none⟩ none r2 else r2) r).id
          == uid) = (r.id == uid) := by
      intro r
      by_cases h : (r.id == uid) = true
      · show ((if (r.id == uid) = true
            then applyUserUpdate ⟨none, some (some e), none⟩ none r else r).id == uid) =
          (r.id == uid)
        rw [if_pos h, hid r]
      · show ((if (r.id == uid) = true
            then applyUserUpdate ⟨none, some (some e), none⟩ none r else r).id == uid) =
          (r.id == uid)
        rw [if_neg h]
    rw [find?_map_pred_inv _ _ _ hpres, hf, Option.map_some']
    have hpos := List.find?_some hf
    simp only [] at hpos
    simp [hpos, hid old]
  refine ⟨{ db with users := db.users.map (fun r =>
      if r.id == uid then applyUserUpdate ⟨none, some (some e), none⟩ none r else r) },
    ?_, ?_, ?_, by simp, ?_⟩
  · rw [hE, hid old]
    rfl
  · show ((db.users.map (fun r =>
        if r.id == uid then applyUserUpdate ⟨none, some (some e), none⟩ none r else r)).find?
          (fun u => u.id == uid)).map userPublicOf = some ⟨old.id, old.username, e⟩
    rw [hfind]
    rfl
  · show (((db.users.map (fun r =>
        if r.id == uid then applyUserUpdate ⟨none, some (some e), none⟩ none r else r)).find?
          (fun u => u.id == uid)).map userPublicOf).map UserPublic.username =
      some old.username
    rw [hfind]
    rfl
  · intro i h1 h2
    have hget : ∀ h2x : i < (db.users.map (fun r =>
        if r.id == uid then applyUserUpdate ⟨none, some (some e), none⟩ none r else r)).length,
        (db.users.map (fun r =>
          if r.id == uid then applyUserUpdate ⟨none, some (some e), none⟩ none r else r)).get
            ⟨i, h2x⟩ =
        (if (db.users.get ⟨i, h1⟩).id == uid
          then applyUserUpdate ⟨none, some (some e), none⟩ none (db.users.get ⟨i, h1⟩)
          else db.users.get ⟨i, h1⟩) := by
      intro h2x
      simp [List.get_eq_getElem, List.getElem_map]
    constructor
    · intro hne
      rw [hget h2, if_neg (by simpa using hne)]
    · intro heq
      rw [hget h2, if_pos (by simpa using heq), hid (db.users.get ⟨i, h1⟩)]
      exact ⟨rfl, rfl, rfl⟩

/-- Witness for C5 at a concrete input: user 1 updated with only an email
field. -/
theorem C5_update_user_email_only_witness :
    ∃ db2 : DB,
      update_user cexDB 1 ⟨none, some (some "b@y.com"), none⟩ 0 =
        Except.ok (some ⟨1, "alice", "b@y.com"⟩, db2) ∧
      get_user db2 1 = some ⟨1, "alice", "b@y.com"⟩ ∧
      (get_user db2 1).map UserPublic.username = some "alice" := by
  obtain ⟨db2, hE, hg, hgu, -, -⟩ :=
    C5_update_user_email_only cexDB 1 "b@y.com" 0 cexUserRow rfl
  exact ⟨db2, by simpa [cexUserRow] using hE, by simpa [cexUserRow] using hg,
    by simpa [cexUserRow] using hgu⟩

/-- C6: `get_posts` pages the owner's posts newest-created first with
offset semantics: an owner with no posts yields the absence value (not a
fault), and any returned page is exactly the result of enumerating the
owner's posts in descending created_at order (a sorted permutation of
the matching rows), skipping the first `skip` rows of that enumeration
and taking at most `limit` of the rest — hence at most `limit` rows,
sorted by descending created_at, all of them the owner's stored posts. -/
theorem C6_get_posts_pagination (db : DB) (oid skip limit : Nat) :
    (db.posts.filter (fun p => p.owner_id == oid) = [] →
      get_posts db oid skip limit = none) ∧
    (∀ l, get_posts db oid skip limit = some l →
      ∃ s : List PostRow,
        List.Perm s (db.posts.filter (fun p => p.owner_id == oid)) ∧
        List.Pairwise postDescLe s ∧
        l = ((s.drop skip).take limit).map postReadOf ∧
        l.length ≤ limit ∧
        List.Pairwise (fun a b : PostRead => b.created_at ≤ a.created_at) l ∧
        ∀ pr ∈ l, ∃ p, p ∈ db.posts ∧ p.owner_id = oid ∧ pr = postReadOf p) := by
  constructor
  · intro h
    simp [get_posts, h]
  · intro l hl
    have hl2 : l = ((((db.posts.filter (fun p => p.owner_id == oid)).insertionSort
        postDescLe).drop skip).take limit).map postReadOf := by
      by_cases hp : ((((db.posts.filter (fun p => p.owner_id == oid)).insertionSort
          postDescLe).drop skip).take limit).isEmpty
      · rw [get_posts] at hl
        simp only [if_pos hp] at hl
        exact absurd hl (by simp)
      · rw [get_posts] at hl
        simp only [if_neg hp] at hl
        exact (Option.some_injective _ hl).symm
    have hsub : List.Sublist
        ((((db.posts.filter (fun p => p.owner_id == oid)).insertionSort
          postDescLe).drop skip).take limit)
        ((db.posts.filter (fun p => p.owner_id == oid)).insertionSort postDescLe) :=
      (List.take_sublist _ _).trans (List.drop_sublist _ _)
    have hsorted : List.Pairwise postDescLe
        ((db.posts.filter (fun p => p.owner_id == oid)).insertionSort postDescLe) :=
      List.sorted_insertionSort postDescLe _
    refine ⟨(db.posts.filter (fun p => p.owner_id == oid)).insertionSort postDescLe,
      List.perm_insertionSort postDescLe _, hsorted, hl2, ?_, ?_, ?_⟩
    · rw [hl2]
      simp only [List.length_map, List.length_take]
      exact Nat.min_le_left _ _
    · have hpage := hsorted.sublist hsub
      rw [hl2, List.pairwise_map]
      exact hpage
    · intro pr hpr
      rw [hl2] at hpr
      obtain ⟨p, hpmem, rfl⟩ := List.mem_map.mp hpr
      have hp2 : p ∈ db.posts.filter (fun p => p.owner_id == oid) :=
        (List.perm_insertionSort postDescLe _).subset (hsub.subset hpmem)
      have hp3 := List.mem_filter.mp hp2
      exact ⟨p, hp3.1, by simpa using hp3.2, rfl⟩

/-- A concrete posts row owned by user 7, created at logical time `i`. -/
def ownedPost (i : Nat) : PostRow := ⟨i, "t", "c", 7, i⟩

/-- A store holding five posts of owner 7 created at increasing
timestamps. -/
def fivePostsDB : DB :=
  ⟨[], [ownedPost 1, ownedPost 2, ownedPost 3, ownedPost 4, ownedPost 5], [], 1, 6, 1, 6⟩

/-- Witness for C6 at concrete inputs: an owner with zero posts yields
the absence value; skip 0 / limit 2 over five posts created at
increasing timestamps yields the two most recent, newest first; skip 2
skips exactly the two most recent; and skip 4 leaves a final page
shorter than the limit. -/
theorem C6_get_posts_pagination_witness :
    get_posts emptyDB 7 0 100 = none ∧
    get_posts fivePostsDB 7 0 2 =
      some [postReadOf (ownedPost 5), postReadOf (ownedPost 4)] ∧
    get_posts fivePostsDB 7 2 2 =
      some [postReadOf (ownedPost 3), postReadOf (ownedPost 2)] ∧
    get_posts fivePostsDB 7 4 2 = some [postReadOf (ownedPost 1)] := by
  refine ⟨(C6_get_posts_pagination emptyDB 7 0 100).1 rfl, rfl, rfl, rfl⟩

/-- C7: `delete_post` on an unknown id returns false and deletes
nothing; on an existing id it returns true, removes that post, and
cascades to every comment whose post_id references it, leaving every
other post, every other comment, and all users untouched. -/
theorem C7_delete_post_cascade (db : DB) (pid : Nat) :
    (db.posts.find? (fun r => r.id == pid) = none → delete_post db pid = (false, db)) ∧
    (∀ p, db.posts.find? (fun r => r.id == pid) = some p →
      (delete_post db pid).1 = true ∧
      (∀ r ∈ (delete_post db pid).2.posts, r.id ≠ pid) ∧
      (∀ r ∈ db.posts, r.id ≠ pid → r ∈ (delete_post db pid).2.posts) ∧
      (∀ r ∈ (delete_post db pid).2.posts, r ∈ db.posts) ∧
      (∀ c ∈ (delete_post db pid).2.comments, c.post_id ≠ pid) ∧
      (∀ c ∈ db.comments, c.post_id ≠ pid → c ∈ (delete_post db pid).2.comments) ∧
      (∀ c ∈ (delete_post db pid).2.comments, c ∈ db.comments) ∧
      (delete_post db pid).2.users = db.users) := by
  constructor
  · intro h
    simp [delete_post, h]
  · intro p hp
    have hd : delete_post db pid =
        (true,
         { db with
             posts := db.posts.filter (fun r => !(r.id == pid)),
             comments := db.comments.filter (fun c => !(c.post_id == pid)) }) := by
      simp only [delete_post]
      rw [hp]
    rw [hd]
    refine ⟨rfl, ?_, ?_, ?_, ?_, ?_, ?_, rfl⟩
    · intro r hr
      have hm := List.mem_filter.mp hr
      simpa using hm.2
    · intro r hr hne
      exact List.mem_filter.mpr ⟨hr, by simpa using hne⟩
    · intro r hr
      exact (List.mem_filter.mp hr).1
    · intro c hc
      have hm := List.mem_filter.mp hc
      simpa using hm.2
    · intro c hc hne
      exact List.mem_filter.mpr ⟨hc, by simpa using hne⟩
    · intro c hc
      exact (List.mem_filter.mp hc).1

/-- A concrete posts row with two dependent comments, one of which
references a different post. -/
def cascPost : PostRow := ⟨1, "t", "c", 7, 1⟩

/-- A comment referencing `cascPost`. -/
def cascComment1 : CommentRow := ⟨1, 1, "nice", 7, 2⟩

/-- A comment referencing a different post id. -/
def cascComment2 : CommentRow := ⟨2, 9, "other", 7, 3⟩

/-- A store holding `cascPost` and both comments. -/
def cascDB : DB := ⟨[], [cascPost], [cascComment1, cascComment2], 1, 2, 3, 4⟩

/-- Witness for C7 at concrete inputs: deleting id 999999 returns false
and changes nothing; deleting post 1 returns true and removes exactly the
comment referencing it. -/
theorem C7_delete_post_cascade_witness :
    delete_post cascDB 999999 = (false, cascDB) ∧
    (delete_post cascDB 1).1 = true ∧
    (delete_post cascDB 1).2.posts = [] ∧
    (delete_post cascDB 1).2.comments = [cascComment2] := by
  refine ⟨(C7_delete_post_cascade cascDB 999999).1 rfl,
    ((C7_delete_post_cascade cascDB 1).2 cascPost rfl).1, rfl, rfl⟩

end BlogApp
